import Mathlib

/-!
Shallow embedding of the vector-pen path-construction engine of the
`xcx-vpen` repository (`src/vm/extensions/block/index.js`, class
`VPenBlocks`).

Path commands are modelled exactly as the source stores them: a command is
a tag (`M`, `L`, `Q`, `T`, `Z`) together with a list of rational numeric
arguments, mirroring the JavaScript arrays `['L', x, y]`,
`['Q', px, py, cx, cy]`, `['T', x, y]` produced by `_addLineToPenPath` and
`_addCurveToPenPath`.  Coordinates and sizes are modelled as rationals.

A `PenState` mirrors `DEFAULT_PEN_STATE`: pen type, pen attributes, the
current open path (`penPath`), the list of paths persisted in the target's
drawing so far (`finished`; the drawing's child paths in insertion order),
and the plotter reference point.  Stateful JavaScript methods become pure
state transformers.
-/

/-- Tags of SVG path commands used by the source. -/
inductive Tag where
  | M
  | L
  | Q
  | T
  | Z
deriving DecidableEq, Repr

/-- One path command: a tag plus its numeric arguments, mirroring the
JavaScript command arrays of `penPath.array()`. -/
structure Cmd where
  tag : Tag
  args : List ℚ
deriving DecidableEq, Repr

/-- Numeric argument access `cmd[i+1]` of the source (index 0 is the tag
in the JavaScript array, so `arg 0` is the first coordinate). -/
def Cmd.arg (c : Cmd) (i : ℕ) : ℚ := c.args.getD i 0

/-- Junk command used as the default for out-of-range list access (the
JavaScript code never hits these accesses on reachable states). -/
def defaultCmd : Cmd := ⟨Tag.M, []⟩

/-- Pen color, `color3b` style. -/
structure RGB where
  r : ℚ
  g : ℚ
  b : ℚ
deriving DecidableEq, Repr

/-- The two pen types of `VPenBlocks.PEN_TYPES`. -/
inductive PenType where
  | trail
  | plotter
deriving DecidableEq, Repr

/-- The two line shapes of `VPenBlocks.LINE_SHAPES`. -/
inductive LineShape where
  | straight
  | curve
deriving DecidableEq, Repr

/-- Pen attributes, mirroring `penAttributes` of `DEFAULT_PEN_STATE`. -/
structure PenAttributes where
  color3b : RGB
  opacity : ℚ
  diameter : ℚ
  lineShape : LineShape
  fillColor3b : RGB
  fillOpacity : ℚ
deriving DecidableEq, Repr

/-- An SVG path element: its command list plus the stroke and fill
attributes snapshotted by `_startPenPath`. -/
structure PenPath where
  cmds : List Cmd
  strokeWidth : ℚ
  strokeColor : RGB
  strokeOpacity : ℚ
  fill : Option (RGB × ℚ)
deriving DecidableEq, Repr

/-- Junk path used as a default for list access in closed statements. -/
def defaultPath : PenPath :=
  { cmds := [], strokeWidth := 0, strokeColor := ⟨0, 0, 0⟩, strokeOpacity := 0, fill := none }

/-- Per-target pen state.  `finished` is the list of path elements that
remain children of the target's drawing after being finished (persisted
content, in insertion order); the open `penPath` is also a child of the
drawing in the source but is tracked separately here, matching the fact
that `_finishPen` either leaves it in place or removes it. -/
structure PenState where
  penType : PenType
  penAttributes : PenAttributes
  penPath : Option PenPath
  finished : List PenPath
  referencePoint : Option (ℚ × ℚ)
deriving DecidableEq, Repr

/-- Stage parameters of the runtime: stage size (`getNativeSize`) and the
step-per-millimeter ratio. -/
structure Env where
  stageWidth : ℚ
  stageHeight : ℚ
  stepPerMM : ℚ
deriving DecidableEq, Repr

/-- The environment used by the repository's tests: a 480 by 360 stage and
the default `stepPerMM = 2`. -/
def env0 : Env := { stageWidth := 480, stageHeight := 360, stepPerMM := 2 }

/-- The default pen state, `VPenBlocks.DEFAULT_PEN_STATE` (with an empty
drawing). -/
def defaultPenState : PenState :=
  { penType := PenType.trail
    penAttributes :=
      { color3b := ⟨0, 0, 0⟩
        opacity := 1
        diameter := 1
        lineShape := LineShape.straight
        fillColor3b := ⟨0, 0, 0⟩
        fillOpacity := 0 }
    penPath := none
    finished := []
    referencePoint := none }

/-- Coordinate transform `_mapToSVGViewBox`: stage space (origin at stage
center, y up) to drawing-surface space. -/
def mapToSVGViewBox (env : Env) (x y : ℚ) : ℚ × ℚ :=
  (x + env.stageWidth / 2, env.stageHeight / 2 - y)

/-- Pen size clamping `_clampPenSize`. -/
def clampPenSize (requestedSize : ℚ) : ℚ := max 0 requestedSize

/-- Removal of the provisional tip, `_removeReferenceLine`.  In curve
shape the source pops the trailing `T`, pops the `Q` and pushes a `T` at
the popped curve's first stored point; in straight shape it pops the last
command.  The reference point is cleared. -/
def removeReferenceLine (s : PenState) : PenState :=
  match s.referencePoint with
  | none => s
  | some _ =>
    match s.penPath with
    | none => s
    | some penPath =>
      if s.penAttributes.lineShape = LineShape.curve then
        let a1 := penPath.cmds.dropLast
        let referenceCurve := a1.getLast?.getD defaultCmd
        let a2 := a1.dropLast
        let a3 := a2 ++ [⟨Tag.T, [referenceCurve.arg 0, referenceCurve.arg 1]⟩]
        { s with penPath := some { penPath with cmds := a3 }, referencePoint := none }
      else
        { s with
            penPath := some { penPath with cmds := penPath.cmds.dropLast }
            referencePoint := none }

/-- The close tolerance of `_finishPen` (0.5 drawing-surface units). -/
def tolerance : ℚ := 1 / 2

/-- The closed-line rewrite of `_finishPen`: when the first drawn command
is a `Q` and the last a `T`, pop the `T`, copy the first `Q` to the end,
re-anchor the `M` to the control point of the first `Q` and remove the
first `Q`; in every closed case append `Z`. -/
def mergeClosedPlots (plots : List Cmd) : List Cmd :=
  let firstLine := plots.getD 1 defaultCmd
  let lastLine := plots.getLast?.getD defaultCmd
  if firstLine.tag = Tag.Q ∧ lastLine.tag = Tag.T then
    let p1 := plots.dropLast
    let p2 := p1 ++ [p1.getD 1 defaultCmd]
    let p3 := p2.set 0 ⟨Tag.M, (p2.getD 1 defaultCmd).args.drop 2⟩
    let p4 := p3.eraseIdx 1
    p4 ++ [⟨Tag.Z, []⟩]
  else
    plots ++ [⟨Tag.Z, []⟩]

/-- Finishing the open path, `_finishPen`: remove any reference line,
discard a one-command path, keep a two-command path as is, and otherwise
run the close-detection heuristic: the compared start is `plots[0]` when
`plots[1]` is an `L` and `plots[1]` otherwise; the path closes when the
squared distance to the last command's stored point is within the squared
tolerance. -/
def finishPen (s : PenState) : PenState :=
  match s.penPath with
  | none => s
  | some _ =>
    let s1 := removeReferenceLine s
    match s1.penPath with
    | none => s1
    | some penPath =>
      let s2 := { s1 with penPath := none }
      let plots := penPath.cmds
      if plots.length = 1 then s2
      else if plots.length = 2 then { s2 with finished := s2.finished ++ [penPath] }
      else
        let start := if (plots.getD 1 defaultCmd).tag = Tag.L
          then plots.getD 0 defaultCmd else plots.getD 1 defaultCmd
        let lastLine := plots.getLast?.getD defaultCmd
        if tolerance ^ 2 <
            (start.arg 0 - lastLine.arg 0) ^ 2 + (start.arg 1 - lastLine.arg 1) ^ 2 then
          { s2 with finished := s2.finished ++ [penPath] }
        else
          { s2 with finished := s2.finished ++ [{ penPath with cmds := mergeClosedPlots plots }] }

/-- The path element created by `_startPenPath`: a single `MoveTo` at the
target's mapped position, with stroke and fill snapshotted from the given
attributes (`fill` is `none` when the fill opacity is not positive,
matching the `'none'` fill of the source). -/
def freshPath (env : Env) (x y : ℚ) (a : PenAttributes) : PenPath :=
  { cmds := [⟨Tag.M, [(mapToSVGViewBox env x y).1, (mapToSVGViewBox env x y).2]⟩]
    strokeWidth := a.diameter * env.stepPerMM
    strokeColor := a.color3b
    strokeOpacity := a.opacity
    fill := if 0 < a.fillOpacity then some (a.fillColor3b, a.fillOpacity) else none }

/-- Starting a new pen path, `_startPenPath`: finish any existing path,
then open a path with a single `MoveTo` at the target's mapped position,
snapshotting stroke and fill attributes. -/
def startPenPath (env : Env) (x y : ℚ) (s : PenState) : PenState :=
  let s1 := finishPen s
  { s1 with penPath := some (freshPath env x y s1.penAttributes) }

/-- Straight segment synthesis, `_addLineToPenPath`. -/
def addLineToPenPath (env : Env) (cmds : List Cmd) (x y : ℚ) : List Cmd :=
  cmds ++ [⟨Tag.L, [(mapToSVGViewBox env x y).1, (mapToSVGViewBox env x y).2]⟩]

/-- Curved segment synthesis, `_addCurveToPenPath`: if the tip is a `T` it
is popped, then a `Q` carrying the previous point and the midpoint control
point is pushed, followed by a `T` at the new endpoint. -/
def addCurveToPenPath (env : Env) (cmds : List Cmd) (x y : ℚ) : List Cmd :=
  let prevNode := cmds.getLast?.getD defaultCmd
  let arr := if prevNode.tag = Tag.T then cmds.dropLast else cmds
  let prevPoint := (prevNode.arg 0, prevNode.arg 1)
  let endPoint := mapToSVGViewBox env x y
  let controlPoint := ((prevPoint.1 + endPoint.1) / 2, (prevPoint.2 + endPoint.2) / 2)
  arr ++ [⟨Tag.Q, [prevPoint.1, prevPoint.2, controlPoint.1, controlPoint.2]⟩,
          ⟨Tag.T, [endPoint.1, endPoint.2]⟩]

/-- Motion handler `onTargetMoved`.  The forced-move special case exists
only in the trail branch of the source; the plotter branch first retracts
the reference line; then the reference point is recorded and a straight or
curved segment is appended per the current line shape. -/
def onTargetMoved (env : Env) (x y : ℚ) (isForce : Bool) (s : PenState) : PenState :=
  match s.penPath with
  | none => s
  | some _ =>
    if s.penType = PenType.trail ∧ isForce then
      startPenPath env x y s
    else
      let s1 := if s.penType = PenType.plotter then removeReferenceLine s else s
      let s2 := { s1 with referencePoint := some (x, y) }
      match s2.penPath with
      | none => s2
      | some p =>
        let cmds := if s2.penAttributes.lineShape = LineShape.curve
          then addCurveToPenPath env p.cmds x y
          else addLineToPenPath env p.cmds x y
        { s2 with penPath := some { p with cmds := cmds } }

/-- The `plot` operation: on an open trail path it does nothing; on an
open plotter path it only clears the reference point; with no open path it
switches to plotter, starts a path and clears the reference point. -/
def plot (env : Env) (x y : ℚ) (s : PenState) : PenState :=
  match s.penPath with
  | some _ =>
    if s.penType = PenType.trail then s
    else { s with referencePoint := none }
  | none =>
    let s1 := { s with penType := PenType.plotter }
    let s2 := startPenPath env x y s1
    { s2 with referencePoint := none }

/-- Finishing on pen-up, `penUp`: a no-op without an open path. -/
def penUp (s : PenState) : PenState :=
  match s.penPath with
  | none => s
  | some _ => finishPen s

/-- Tail of `penDown` after the early-return check: set the pen type and,
for the trail pen, start a path immediately. -/
def penDownCont (env : Env) (pt : PenType) (x y : ℚ) (s : PenState) : PenState :=
  let s1 := { s with penType := pt }
  if pt = PenType.trail then startPenPath env x y s1 else s1

/-- The `penDown` operation: with an open path of the same type it is a
no-op; with an open path of the other type it first runs `penUp`. -/
def penDown (env : Env) (pt : PenType) (x y : ℚ) (s : PenState) : PenState :=
  match s.penPath with
  | some _ =>
    if s.penType = pt then s
    else penDownCont env pt x y (penUp s)
  | none => penDownCont env pt x y s

/-- The `setPenSizeTo` operation: clamp the requested size, return early
when unchanged, otherwise store the new diameter and, when a path is open,
restart the path at the target's current position. -/
def setPenSizeTo (env : Env) (x y size : ℚ) (s : PenState) : PenState :=
  let newPenSize := clampPenSize size
  if s.penAttributes.diameter = newPenSize then s
  else
    let s1 := { s with penAttributes := { s.penAttributes with diameter := newPenSize } }
    match s1.penPath with
    | some _ => startPenPath env x y s1
    | none => s1

/-- The `setLineShape` operation: record the new shape; no restart. -/
def setLineShape (shape : LineShape) (s : PenState) : PenState :=
  if s.penAttributes.lineShape = shape then s
  else { s with penAttributes := { s.penAttributes with lineShape := shape } }

/-- Applying a sequence of motion events. -/
def applyMoves (env : Env) (moves : List (ℚ × ℚ)) (s : PenState) : PenState :=
  moves.foldl (fun st m => onTargetMoved env m.1 m.2 false st) s

/-- The pen operations that mutate a single target's pen state. -/
inductive PenOp where
  | down (pt : PenType) (x y : ℚ)
  | up
  | move (x y : ℚ) (isForce : Bool)
  | plotAt (x y : ℚ)
  | setSize (x y size : ℚ)
  | setShape (shape : LineShape)
deriving DecidableEq, Repr

/-- Dispatch of one pen operation. -/
def applyOp (env : Env) (op : PenOp) (s : PenState) : PenState :=
  match op with
  | PenOp.down pt x y => penDown env pt x y s
  | PenOp.up => penUp s
  | PenOp.move x y isForce => onTargetMoved env x y isForce s
  | PenOp.plotAt x y => plot env x y s
  | PenOp.setSize x y size => setPenSizeTo env x y size s
  | PenOp.setShape shape => setLineShape shape s

/-!
Document model for clone handling (`onTargetCreated`).  An SVG drawing is
a tree of elements; a target's drawing handle is an index into a store of
documents plus an address (a child-index sequence) of the container it
draws into.  `svg.js` semantics: `container.group()` appends a fresh
empty group to the container's children and returns it; `container.path`
appends a path element.  `onTargetCreated` sets the clone's drawing to
`sourcePenState.drawing.group()`, so the clone's handle addresses a new
group inside the source's own document.
-/

/-- An element of a vector document: a path or a group of elements. -/
inductive SvgElem where
  | path (cmds : List Cmd)
  | group (children : List SvgElem)

/-- Apply a function to the element at one index of a list, leaving the
rest unchanged. -/
def mapAt : ℕ → (α → α) → List α → List α
  | _, _, [] => []
  | 0, f, x :: xs => f x :: xs
  | n + 1, f, x :: xs => x :: mapAt n f xs

/-- Append a child element at the container addressed by a child-index
sequence (elements that are not groups are left unchanged, matching that
only containers can be addressed). -/
def addChildAt : List ℕ → SvgElem → List SvgElem → List SvgElem
  | [], e, es => es ++ [e]
  | i :: rest, e, es =>
    mapAt i (fun c =>
      match c with
      | SvgElem.group cs => SvgElem.group (addChildAt rest e cs)
      | c => c) es

/-- The children of the container at an address, when the address leads
through groups. -/
def childrenAt : List ℕ → List SvgElem → Option (List SvgElem)
  | [], es => some es
  | i :: rest, es =>
    match es[i]? with
    | some (SvgElem.group cs) => childrenAt rest cs
    | _ => none

/-- A target's drawing handle: the document it draws into and the address
of its container inside that document. -/
structure DrawingHandle where
  doc : ℕ
  addr : List ℕ
deriving DecidableEq, Repr

/-- A store of vector documents (each document given by its root
children). -/
def DocStore : Type := List (List SvgElem)

/-- Creation of a subgroup, `container.group()`: append a fresh empty
group to the addressed container and return the handle addressing the new
group. -/
def docGroup (store : DocStore) (h : DrawingHandle) : DocStore × DrawingHandle :=
  let container := (childrenAt h.addr (store.getD h.doc [])).getD []
  let store2 := mapAt h.doc (addChildAt h.addr (SvgElem.group [])) store
  (store2, ⟨h.doc, h.addr ++ [container.length]⟩)

/-- Drawing a path into a handle's container, `container.path(...)`. -/
def docAddPath (store : DocStore) (h : DrawingHandle) (cmds : List Cmd) : DocStore :=
  mapAt h.doc (addChildAt h.addr (SvgElem.path cmds)) store

/-- The drawing-surface assignment of `onTargetCreated` for a clone:
`newPenState.drawing = sourcePenState.drawing.group()`. -/
def cloneDrawingFor (store : DocStore) (sourceDrawing : DrawingHandle) :
    DocStore × DrawingHandle :=
  docGroup store sourceDrawing

/-!
Export model (`downloadSpriteDrawing`, `downloadAllDrawing`).  The file
name prompt is an input: `none` models a cancelled prompt (the JavaScript
`prompt` returning `null`).  Both functions return a plain string result
and throw on none of these paths; the result type below carries the three
observable outcomes.
-/

/-- The three results returned by the download operations. -/
inductive ExportResult where
  | noDrawing
  | cancelled
  | saved
deriving DecidableEq, Repr

/-- Export of a single target's drawing, `downloadSpriteDrawing`.  The
first argument is `none` when the target has no pen state, and
`some none` when its pen state has no drawing, matching the source guard
that returns early when the pen state or its drawing is absent. -/
def downloadSpriteDrawing (penDrawing : Option (Option (List SvgElem)))
    (promptResult : Option String) : ExportResult :=
  match penDrawing with
  | none => ExportResult.noDrawing
  | some none => ExportResult.noDrawing
  | some (some _) =>
    match promptResult with
    | none => ExportResult.cancelled
    | some fileName =>
      if fileName = "" then ExportResult.cancelled else ExportResult.saved

/-- Export of all targets' drawings, `downloadAllDrawing`. -/
def downloadAllDrawing (promptResult : Option String) : ExportResult :=
  match promptResult with
  | none => ExportResult.cancelled
  | some fileName =>
    if fileName = "" then ExportResult.cancelled else ExportResult.saved

/-- Convenience constructor for a concrete path element with default
stroke attributes, used in closed statements. -/
def mkPath (cmds : List Cmd) : PenPath :=
  { cmds := cmds, strokeWidth := 2, strokeColor := ⟨0, 0, 0⟩, strokeOpacity := 1, fill := none }

/-!
Helper lemmas: field preservation of the state transformers.
-/

theorem removeReferenceLine_penAttributes (s : PenState) :
    (removeReferenceLine s).penAttributes = s.penAttributes := by
  obtain ⟨pt, attrs, pp, fin, ref⟩ := s
  cases ref <;> cases pp <;> simp [removeReferenceLine] <;> split <;> rfl

theorem removeReferenceLine_penType (s : PenState) :
    (removeReferenceLine s).penType = s.penType := by
  obtain ⟨pt, attrs, pp, fin, ref⟩ := s
  cases ref <;> cases pp <;> simp [removeReferenceLine] <;> split <;> rfl

theorem removeReferenceLine_finished (s : PenState) :
    (removeReferenceLine s).finished = s.finished := by
  obtain ⟨pt, attrs, pp, fin, ref⟩ := s
  cases ref <;> cases pp <;> simp [removeReferenceLine] <;> split <;> rfl

theorem finishPen_penAttributes (s : PenState) :
    (finishPen s).penAttributes = s.penAttributes := by
  obtain ⟨pt, ⟨c, o, d, ls, fc, fo⟩, pp, fin, ref⟩ := s
  cases ref <;> cases pp <;> cases ls <;>
    simp [finishPen, removeReferenceLine] <;> (repeat' split) <;> rfl

theorem finishPen_penType (s : PenState) :
    (finishPen s).penType = s.penType := by
  obtain ⟨pt, ⟨c, o, d, ls, fc, fo⟩, pp, fin, ref⟩ := s
  cases ref <;> cases pp <;> cases ls <;>
    simp [finishPen, removeReferenceLine] <;> (repeat' split) <;> rfl

theorem startPenPath_penAttributes (env : Env) (x y : ℚ) (s : PenState) :
    (startPenPath env x y s).penAttributes = s.penAttributes := by
  simp [startPenPath, finishPen_penAttributes]

theorem startPenPath_penType (env : Env) (x y : ℚ) (s : PenState) :
    (startPenPath env x y s).penType = s.penType := by
  simp [startPenPath, finishPen_penType]

theorem removeReferenceLine_of_ref_none (s : PenState) (h : s.referencePoint = none) :
    removeReferenceLine s = s := by
  simp [removeReferenceLine, h]

theorem finishPen_of_none (s : PenState) (h : s.penPath = none) : finishPen s = s := by
  simp [finishPen, h]

theorem onTargetMoved_penAttributes (env : Env) (x y : ℚ) (b : Bool) (s : PenState) :
    (onTargetMoved env x y b s).penAttributes = s.penAttributes := by
  obtain ⟨pt, ⟨c, o, d, ls, fc, fo⟩, pp, fin, ref⟩ := s
  cases pp <;> cases pt <;> cases b <;> cases ref <;> cases ls <;>
    simp [onTargetMoved, removeReferenceLine, startPenPath_penAttributes]

theorem plot_penAttributes (env : Env) (x y : ℚ) (s : PenState) :
    (plot env x y s).penAttributes = s.penAttributes := by
  obtain ⟨pt, attrs, pp, fin, ref⟩ := s
  cases pp <;> cases pt <;>
    simp [plot, startPenPath_penAttributes]

theorem penUp_penAttributes (s : PenState) :
    (penUp s).penAttributes = s.penAttributes := by
  obtain ⟨pt, attrs, pp, fin, ref⟩ := s
  cases pp <;> simp [penUp, finishPen_penAttributes]

theorem penDownCont_penAttributes (env : Env) (pt : PenType) (x y : ℚ) (s : PenState) :
    (penDownCont env pt x y s).penAttributes = s.penAttributes := by
  cases pt <;> simp [penDownCont, startPenPath_penAttributes]

theorem penDown_penAttributes (env : Env) (pt : PenType) (x y : ℚ) (s : PenState) :
    (penDown env pt x y s).penAttributes = s.penAttributes := by
  obtain ⟨pt0, attrs, pp, fin, ref⟩ := s
  cases pp <;>
    simp [penDown, penDownCont_penAttributes, penUp_penAttributes]
  split <;> simp [penDownCont_penAttributes, penUp_penAttributes]

theorem setLineShape_diameter (shape : LineShape) (s : PenState) :
    (setLineShape shape s).penAttributes.diameter = s.penAttributes.diameter := by
  unfold setLineShape
  split <;> rfl

theorem setPenSizeTo_diameter (env : Env) (x y sz : ℚ) (s : PenState) :
    (setPenSizeTo env x y sz s).penAttributes.diameter = max 0 sz := by
  unfold setPenSizeTo
  dsimp only
  split
  · next h => rw [h]; rfl
  · next h =>
    obtain ⟨pt, attrs, pp, fin, ref⟩ := s
    cases pp
    · rfl
    · rw [startPenPath_penAttributes]
      rfl

/-!
Claim C10.
-/

/-- C10: after `setPenSizeTo` with requested size `sz` the stored diameter
is exactly `max 0 sz`, and every modelled pen operation preserves
non-negativity of the diameter. -/
theorem vpen_C10_clamp_pen_size (env : Env) (x y sz : ℚ) (s : PenState) :
    (setPenSizeTo env x y sz s).penAttributes.diameter = max 0 sz
    ∧ (∀ op : PenOp, 0 ≤ s.penAttributes.diameter →
        0 ≤ (applyOp env op s).penAttributes.diameter) := by
  refine ⟨setPenSizeTo_diameter env x y sz s, ?_⟩
  intro op hd
  cases op with
  | down pt2 a b => rw [applyOp, penDown_penAttributes]; exact hd
  | up => rw [applyOp, penUp_penAttributes]; exact hd
  | move a b f => rw [applyOp, onTargetMoved_penAttributes]; exact hd
  | plotAt a b => rw [applyOp, plot_penAttributes]; exact hd
  | setSize a b sz2 => rw [applyOp, setPenSizeTo_diameter]; exact le_max_left 0 sz2
  | setShape sh => rw [applyOp, setLineShape_diameter]; exact hd

/-- Witness for C10 at a concrete negative requested size. -/
theorem vpen_C10_clamp_pen_size_witness :
    (0 : ℚ) ≤ defaultPenState.penAttributes.diameter
    ∧ (setPenSizeTo env0 0 0 (-3) defaultPenState).penAttributes.diameter = max 0 (-3)
    ∧ 0 ≤ (applyOp env0 (PenOp.setSize 0 0 (-3)) defaultPenState).penAttributes.diameter :=
  ⟨by norm_num [defaultPenState],
   (vpen_C10_clamp_pen_size env0 0 0 (-3) defaultPenState).1,
   (vpen_C10_clamp_pen_size env0 0 0 (-3) defaultPenState).2 (PenOp.setSize 0 0 (-3))
     (by norm_num [defaultPenState])⟩

/-!
Claim C9.
-/

/-- C9: exporting a single target's drawing returns the distinguishable
`noDrawing` result when the target has no recorded drawing, and a
cancelled file-name prompt yields the distinguishable `cancelled` result
for both export operations; all outcomes are ordinary return values of
total functions, not errors. -/
theorem vpen_C9_export_results (penDrawing : Option (Option (List SvgElem)))
    (promptResult : Option String) (els : List SvgElem) :
    ((penDrawing = none ∨ penDrawing = some none) →
      downloadSpriteDrawing penDrawing promptResult = ExportResult.noDrawing)
    ∧ ((promptResult = none ∨ promptResult = some "") →
      downloadSpriteDrawing (some (some els)) promptResult = ExportResult.cancelled
      ∧ downloadAllDrawing promptResult = ExportResult.cancelled) := by
  constructor
  · rintro (rfl | rfl) <;> rfl
  · rintro (rfl | rfl) <;> exact ⟨rfl, rfl⟩

/-- Witness for C9: a target without pen state and a cancelled prompt. -/
theorem vpen_C9_export_results_witness :
    ((none : Option (Option (List SvgElem))) = none ∨
      (none : Option (Option (List SvgElem))) = some none)
    ∧ downloadSpriteDrawing none (some "art") = ExportResult.noDrawing
    ∧ downloadSpriteDrawing (some (some [])) none = ExportResult.cancelled
    ∧ downloadAllDrawing none = ExportResult.cancelled :=
  ⟨Or.inl rfl,
   (vpen_C9_export_results none (some "art") []).1 (Or.inl rfl),
   ((vpen_C9_export_results none none []).2 (Or.inl rfl)).1,
   ((vpen_C9_export_results none none []).2 (Or.inl rfl)).2⟩

/-!
Claim C7.
-/

/-- C7: finishing a path whose command list holds only the initial
`MoveTo` discards it: nothing is persisted and the drawing content is
unchanged.  In particular pen-down immediately followed by pen-up (either
pen type) persists nothing. -/
theorem vpen_C7_single_command_discard (env : Env) (s : PenState) (p : PenPath) (x y : ℚ)
    (hpath : s.penPath = some p) (hone : p.cmds.length = 1)
    (href : s.referencePoint = none) :
    ((finishPen s).finished = s.finished ∧ (finishPen s).penPath = none)
    ∧ ∀ (s0 : PenState) (pt : PenType) (a b : ℚ),
        s0.penPath = none → s0.referencePoint = none →
        (penUp (penDown env pt a b s0)).finished = s0.finished
        ∧ (penUp (penDown env pt a b s0)).penPath = none := by
  constructor
  · obtain ⟨pt, attrs, pp, fin, ref⟩ := s
    dsimp only at hpath href
    subst hpath
    subst href
    simp [finishPen, removeReferenceLine, hone]
  · intro s0 pt a b hidle href0
    obtain ⟨pt0, attrs0, pp0, fin0, ref0⟩ := s0
    dsimp only at hidle href0
    subst hidle
    subst href0
    cases pt <;>
      simp [penDown, penDownCont, penUp, startPenPath, freshPath, finishPen, removeReferenceLine]

/-- Witness for C7: a one-command path in an otherwise default state, and
pen-down then pen-up at a concrete point from the default state. -/
theorem vpen_C7_single_command_discard_witness :
    ((finishPen { defaultPenState with
        penPath := some (mkPath [⟨Tag.M, [243, 176]⟩]) }).finished =
      ({ defaultPenState with
        penPath := some (mkPath [⟨Tag.M, [243, 176]⟩]) } : PenState).finished
    ∧ (finishPen { defaultPenState with
        penPath := some (mkPath [⟨Tag.M, [243, 176]⟩]) }).penPath = none)
    ∧ (penUp (penDown env0 PenType.trail 3 4 defaultPenState)).finished =
        defaultPenState.finished
    ∧ (penUp (penDown env0 PenType.trail 3 4 defaultPenState)).penPath = none := by
  have h := vpen_C7_single_command_discard env0
    { defaultPenState with penPath := some (mkPath [⟨Tag.M, [243, 176]⟩]) }
    (mkPath [⟨Tag.M, [243, 176]⟩]) 3 4 rfl rfl rfl
  exact ⟨h.1, (h.2 defaultPenState PenType.trail 3 4 rfl rfl).1,
    (h.2 defaultPenState PenType.trail 3 4 rfl rfl).2⟩

/-!
Claim C2.
-/

/-- C2 counterexample: in plotter mode a forced motion event does append a
draw command (an `L` connecting the old position to the new one) and the
path is neither finished nor restarted, contradicting the claim that
forced motion never appends a draw command for either pen type. -/
theorem vpen_C2_counterexample :
    ((onTargetMoved env0 10 0 true (plot env0 0 0 defaultPenState)).penPath.getD
        defaultPath).cmds
      = [⟨Tag.M, [240, 180]⟩, ⟨Tag.L, [250, 180]⟩]
    ∧ (onTargetMoved env0 10 0 true (plot env0 0 0 defaultPenState)).finished = [] := by
  constructor <;>
    norm_num +decide [onTargetMoved, plot, defaultPenState, startPenPath, freshPath, finishPen,
      removeReferenceLine, mapToSVGViewBox, env0, addLineToPenPath, defaultPath]

/-- C2 amended: a forced motion is treated as finish plus restart at the
new location only for the trail pen; the plotter pen ignores the forced
flag entirely and handles the event exactly like a non-forced motion. -/
theorem vpen_C2_forced_motion (env : Env) (s : PenState) (p : PenPath) (x y : ℚ)
    (hopen : s.penPath = some p) :
    (s.penType = PenType.trail →
      onTargetMoved env x y true s = startPenPath env x y s
      ∧ ∃ q, (startPenPath env x y s).penPath = some q
          ∧ q.cmds = [⟨Tag.M, [(mapToSVGViewBox env x y).1, (mapToSVGViewBox env x y).2]⟩])
    ∧ (s.penType = PenType.plotter →
      onTargetMoved env x y true s = onTargetMoved env x y false s) := by
  obtain ⟨pt, attrs, pp, fin, ref⟩ := s
  dsimp only at hopen
  subst hopen
  constructor
  · intro ht
    dsimp only at ht
    subst ht
    constructor
    · simp [onTargetMoved]
    · exact ⟨_, rfl, rfl⟩
  · intro ht
    dsimp only at ht
    subst ht
    simp [onTargetMoved]

/-- Witness for C2 at a concrete open trail path. -/
theorem vpen_C2_forced_motion_witness :
    ({ defaultPenState with penPath := some (mkPath [⟨Tag.M, [240, 180]⟩]) } :
        PenState).penPath = some (mkPath [⟨Tag.M, [240, 180]⟩])
    ∧ ({ defaultPenState with
          penPath := some (mkPath [⟨Tag.M, [240, 180]⟩]) } : PenState).penType =
        PenType.trail
    ∧ onTargetMoved env0 10 0 true
        { defaultPenState with penPath := some (mkPath [⟨Tag.M, [240, 180]⟩]) } =
      startPenPath env0 10 0
        { defaultPenState with penPath := some (mkPath [⟨Tag.M, [240, 180]⟩]) } :=
  ⟨rfl, rfl,
   ((vpen_C2_forced_motion env0
      { defaultPenState with penPath := some (mkPath [⟨Tag.M, [240, 180]⟩]) }
      (mkPath [⟨Tag.M, [240, 180]⟩]) 10 0 rfl).1 rfl).1⟩

theorem getLast?_append_pair {α : Type} (l : List α) (a b : α) :
    (l ++ [a, b]).getLast? = some b := by
  have h : l ++ [a, b] = (l ++ [a]) ++ [b] := by simp
  rw [h, List.getLast?_concat]

theorem addCurveToPenPath_ne_nil (env : Env) (cmds : List Cmd) (x y : ℚ) :
    addCurveToPenPath env cmds x y ≠ [] := by
  simp [addCurveToPenPath]

theorem addCurveToPenPath_getLast (env : Env) (cmds : List Cmd) (x y : ℚ) :
    ((addCurveToPenPath env cmds x y).getLast?.getD defaultCmd).tag = Tag.T := by
  unfold addCurveToPenPath
  dsimp only
  rw [getLast?_append_pair]
  rfl

theorem addCurveToPenPath_length_of_T (env : Env) (cmds : List Cmd) (x y : ℚ)
    (h : (cmds.getLast?.getD defaultCmd).tag = Tag.T) (hne : cmds ≠ []) :
    (addCurveToPenPath env cmds x y).length = cmds.length + 1 := by
  have hpos : 0 < cmds.length := List.length_pos.mpr hne
  simp only [addCurveToPenPath, h, if_pos]
  simp only [List.length_append, List.length_dropLast, List.length_cons, List.length_nil]
  omega

theorem addCurveToPenPath_length_of_not_T (env : Env) (cmds : List Cmd) (x y : ℚ)
    (h : ¬ (cmds.getLast?.getD defaultCmd).tag = Tag.T) :
    (addCurveToPenPath env cmds x y).length = cmds.length + 2 := by
  simp only [addCurveToPenPath, h, if_neg, if_false]
  simp

/-!
Claim C5.
-/

/-- C5 counterexample: after one plotter motion the path has commands `M`
and a provisional `L`; calling `plot` leaves the command list unchanged at
two commands (nothing is appended) and merely clears the reference point,
contradicting the claim that `plot` appends one more segment. -/
theorem vpen_C5_counterexample :
    ((plot env0 10 0 (onTargetMoved env0 10 0 false
        (plot env0 0 0 defaultPenState))).penPath.getD defaultPath).cmds
      = ((onTargetMoved env0 10 0 false
        (plot env0 0 0 defaultPenState)).penPath.getD defaultPath).cmds
    ∧ ((plot env0 10 0 (onTargetMoved env0 10 0 false
        (plot env0 0 0 defaultPenState))).penPath.getD defaultPath).cmds.length = 2
    ∧ (plot env0 10 0 (onTargetMoved env0 10 0 false
        (plot env0 0 0 defaultPenState))).referencePoint = none := by
  refine ⟨?_, ?_, ?_⟩ <;>
    norm_num +decide [onTargetMoved, plot, defaultPenState, startPenPath, freshPath, finishPen,
      removeReferenceLine, mapToSVGViewBox, env0, addLineToPenPath, defaultPath]

/-- C5 amended: `plot` on an open plotter path (either line shape) clears
the reference-point marker and changes nothing else — no command is
popped or appended; the provisional tip thereby becomes permanent.  The
next motion event then extends the path instead of retracting the
committed tip: in straight shape it appends one `L`; in curve shape it
runs the curve synthesis on the full command list (popping a trailing `T`
and pushing a `Q`,`T` pair), a net gain of one command when the tip is a
`T`. -/
theorem vpen_C5_plot_commit (env : Env) (s : PenState) (p : PenPath) (x y : ℚ)
    (hopen : s.penPath = some p) (hplotter : s.penType = PenType.plotter) :
    (plot env x y s).penPath = some p
    ∧ (plot env x y s).referencePoint = none
    ∧ (plot env x y s).finished = s.finished
    ∧ (s.penAttributes.lineShape = LineShape.straight →
        ∀ nx ny : ℚ, ∃ q,
          (onTargetMoved env nx ny false (plot env x y s)).penPath = some q
          ∧ q.cmds = p.cmds ++ [⟨Tag.L,
              [(mapToSVGViewBox env nx ny).1, (mapToSVGViewBox env nx ny).2]⟩])
    ∧ (s.penAttributes.lineShape = LineShape.curve →
        ∀ nx ny : ℚ, ∃ q,
          (onTargetMoved env nx ny false (plot env x y s)).penPath = some q
          ∧ q.cmds = addCurveToPenPath env p.cmds nx ny
          ∧ ((p.cmds.getLast?.getD defaultCmd).tag = Tag.T → p.cmds ≠ [] →
              q.cmds.length = p.cmds.length + 1)) := by
  obtain ⟨pt, ⟨c, o, d, ls, fc, fo⟩, pp, fin, ref⟩ := s
  dsimp only at hopen hplotter
  subst hopen
  subst hplotter
  refine ⟨by simp [plot], by simp [plot], by simp [plot], ?_, ?_⟩
  · intro hstraight nx ny
    dsimp only at hstraight
    subst hstraight
    refine ⟨{ p with cmds := p.cmds ++ [⟨Tag.L,
        [(mapToSVGViewBox env nx ny).1, (mapToSVGViewBox env nx ny).2]⟩] }, ?_, rfl⟩
    simp [plot, onTargetMoved, removeReferenceLine, addLineToPenPath]
  · intro hcurve nx ny
    dsimp only at hcurve
    subst hcurve
    refine ⟨{ p with cmds := addCurveToPenPath env p.cmds nx ny }, ?_, rfl, ?_⟩
    · simp [plot, onTargetMoved, removeReferenceLine]
    · intro hT hne
      exact addCurveToPenPath_length_of_T env p.cmds nx ny hT hne

/-- Witness for C5 at a concrete open plotter path with a provisional
tip. -/
theorem vpen_C5_plot_commit_witness :
    ({ defaultPenState with
        penType := PenType.plotter
        penPath := some (mkPath [⟨Tag.M, [240, 180]⟩, ⟨Tag.L, [250, 180]⟩])
        referencePoint := some (10, 0) } : PenState).penPath =
      some (mkPath [⟨Tag.M, [240, 180]⟩, ⟨Tag.L, [250, 180]⟩])
    ∧ (plot env0 10 0 { defaultPenState with
        penType := PenType.plotter
        penPath := some (mkPath [⟨Tag.M, [240, 180]⟩, ⟨Tag.L, [250, 180]⟩])
        referencePoint := some (10, 0) }).penPath =
      some (mkPath [⟨Tag.M, [240, 180]⟩, ⟨Tag.L, [250, 180]⟩]) :=
  ⟨rfl,
   (vpen_C5_plot_commit env0
     { defaultPenState with
        penType := PenType.plotter
        penPath := some (mkPath [⟨Tag.M, [240, 180]⟩, ⟨Tag.L, [250, 180]⟩])
        referencePoint := some (10, 0) }
     (mkPath [⟨Tag.M, [240, 180]⟩, ⟨Tag.L, [250, 180]⟩]) 10 0 rfl rfl).1⟩

/-!
Counterexamples for claims C1, C3 and C4.
-/

/-- C1 counterexample: a trail path drawn through the points mapped to
`(250, 180)`, `(245, 175)`, `(961/4, 180)` (the last motion's provisional
command is popped at finish) receives a `Z` close command although the
distance between the first drawn point `(250, 180)` and the final drawn
point `(961/4, 180)` is `39/4`, far above the `1/2` tolerance: the code
compares against the initial `MoveTo` point `(240, 180)` instead. -/
theorem vpen_C1_counterexample :
    (penUp (applyMoves env0 [(10, 0), (5, 5), (1/4, 0), (30, 30)]
        (penDown env0 PenType.trail 0 0 defaultPenState))).finished.map
        (fun q => q.cmds)
      = [[⟨Tag.M, [240, 180]⟩, ⟨Tag.L, [250, 180]⟩, ⟨Tag.L, [245, 175]⟩,
          ⟨Tag.L, [961/4, 180]⟩, ⟨Tag.Z, []⟩]]
    ∧ ((250 : ℚ) - 961/4) ^ 2 + ((180 : ℚ) - 180) ^ 2 > (1/2) ^ 2 := by
  constructor
  · norm_num +decide [applyMoves, onTargetMoved, plot, penDown, penDownCont, penUp,
      startPenPath, freshPath, finishPen, removeReferenceLine, addLineToPenPath, addCurveToPenPath,
      setLineShape, mergeClosedPlots, mapToSVGViewBox, env0, defaultPenState, defaultPath,
      defaultCmd, Cmd.arg, tolerance]
  · norm_num

/-- C3 counterexample: in plotter mode with the curve line shape, a single
motion event after starting the path leaves three commands (`M`, `Q`,
`T`), not the claimed two. -/
theorem vpen_C3_counterexample :
    ((onTargetMoved env0 10 0 false
        (plot env0 0 0 (setLineShape LineShape.curve defaultPenState))).penPath.getD
        defaultPath).cmds
      = [⟨Tag.M, [240, 180]⟩, ⟨Tag.Q, [240, 180, 245, 180]⟩, ⟨Tag.T, [250, 180]⟩]
    ∧ ¬ ((onTargetMoved env0 10 0 false
        (plot env0 0 0 (setLineShape LineShape.curve defaultPenState))).penPath.getD
        defaultPath).cmds.length = 2 := by
  constructor <;>
    norm_num +decide [onTargetMoved, plot, setLineShape, defaultPenState, startPenPath, freshPath,
      finishPen, removeReferenceLine, mapToSVGViewBox, env0, addCurveToPenPath,
      defaultPath, defaultCmd, Cmd.arg]

/-- C4 counterexample: in trail mode with the curve line shape, one motion
event yields three commands (`M`, `Q`, `T`), not the claimed `N + 1 = 2`. -/
theorem vpen_C4_counterexample :
    ((onTargetMoved env0 10 0 false
        (penDown env0 PenType.trail 0 0
          (setLineShape LineShape.curve defaultPenState))).penPath.getD
        defaultPath).cmds
      = [⟨Tag.M, [240, 180]⟩, ⟨Tag.Q, [240, 180, 245, 180]⟩, ⟨Tag.T, [250, 180]⟩]
    ∧ ¬ ((onTargetMoved env0 10 0 false
        (penDown env0 PenType.trail 0 0
          (setLineShape LineShape.curve defaultPenState))).penPath.getD
        defaultPath).cmds.length = 1 + 1 := by
  constructor <;>
    norm_num +decide [onTargetMoved, penDown, penDownCont, setLineShape, defaultPenState,
      startPenPath, freshPath, finishPen, removeReferenceLine, mapToSVGViewBox, env0,
      addCurveToPenPath, defaultPath, defaultCmd, Cmd.arg]

/-!
Step lemmas for the motion handler, used by the command-count theorems.
-/

theorem onTargetMoved_trail_straight (env : Env) (s : PenState) (p : PenPath) (x y : ℚ)
    (ht : s.penType = PenType.trail) (hs : s.penAttributes.lineShape = LineShape.straight)
    (hp : s.penPath = some p) :
    onTargetMoved env x y false s =
      { s with
          penPath := some { p with cmds := p.cmds ++
            [⟨Tag.L, [(mapToSVGViewBox env x y).1, (mapToSVGViewBox env x y).2]⟩] }
          referencePoint := some (x, y) } := by
  obtain ⟨pt, ⟨c, o, d, ls, fc, fo⟩, pp, fin, ref⟩ := s
  dsimp only at ht hs hp
  subst ht
  subst hs
  subst hp
  simp [onTargetMoved, addLineToPenPath]

theorem onTargetMoved_trail_curve (env : Env) (s : PenState) (p : PenPath) (x y : ℚ)
    (ht : s.penType = PenType.trail) (hs : s.penAttributes.lineShape = LineShape.curve)
    (hp : s.penPath = some p) :
    onTargetMoved env x y false s =
      { s with
          penPath := some { p with cmds := addCurveToPenPath env p.cmds x y }
          referencePoint := some (x, y) } := by
  obtain ⟨pt, ⟨c, o, d, ls, fc, fo⟩, pp, fin, ref⟩ := s
  dsimp only at ht hs hp
  subst ht
  subst hs
  subst hp
  simp [onTargetMoved]

theorem onTargetMoved_plotter_refnone (env : Env) (s : PenState) (p : PenPath) (x y : ℚ)
    (ht : s.penType = PenType.plotter) (hp : s.penPath = some p)
    (href : s.referencePoint = none) :
    onTargetMoved env x y false s =
      { s with
          penPath := some { p with cmds :=
            if s.penAttributes.lineShape = LineShape.curve
              then addCurveToPenPath env p.cmds x y
              else addLineToPenPath env p.cmds x y }
          referencePoint := some (x, y) } := by
  obtain ⟨pt, ⟨c, o, d, ls, fc, fo⟩, pp, fin, ref⟩ := s
  dsimp only at ht hp href
  subst ht
  subst hp
  subst href
  cases ls <;> simp [onTargetMoved, removeReferenceLine]

theorem onTargetMoved_plotter_straight_refsome (env : Env) (s : PenState) (p : PenPath)
    (x y : ℚ) (r : ℚ × ℚ)
    (ht : s.penType = PenType.plotter)
    (hs : s.penAttributes.lineShape = LineShape.straight)
    (hp : s.penPath = some p) (href : s.referencePoint = some r) :
    onTargetMoved env x y false s =
      { s with
          penPath := some { p with cmds := p.cmds.dropLast ++
            [⟨Tag.L, [(mapToSVGViewBox env x y).1, (mapToSVGViewBox env x y).2]⟩] }
          referencePoint := some (x, y) } := by
  obtain ⟨pt, ⟨c, o, d, ls, fc, fo⟩, pp, fin, ref⟩ := s
  dsimp only at ht hs hp href
  subst ht
  subst hs
  subst hp
  subst href
  simp [onTargetMoved, removeReferenceLine, addLineToPenPath]

theorem onTargetMoved_plotter_curve_inv (env : Env) (s : PenState) (p : PenPath)
    (m0 : Cmd) (cx cy ex ey x y : ℚ) (r : ℚ × ℚ)
    (ht : s.penType = PenType.plotter)
    (hs : s.penAttributes.lineShape = LineShape.curve)
    (hp : s.penPath = some p)
    (hcmds : p.cmds = [m0, ⟨Tag.Q, [m0.arg 0, m0.arg 1, cx, cy]⟩, ⟨Tag.T, [ex, ey]⟩])
    (href : s.referencePoint = some r) :
    onTargetMoved env x y false s =
      { s with
          penPath := some { p with cmds := [m0,
            ⟨Tag.Q, [m0.arg 0, m0.arg 1, (m0.arg 0 + (mapToSVGViewBox env x y).1) / 2,
              (m0.arg 1 + (mapToSVGViewBox env x y).2) / 2]⟩,
            ⟨Tag.T, [(mapToSVGViewBox env x y).1, (mapToSVGViewBox env x y).2]⟩] }
          referencePoint := some (x, y) } := by
  obtain ⟨pt, ⟨c, o, d, ls, fc, fo⟩, pp, fin, ref⟩ := s
  dsimp only at ht hs hp href
  subst ht
  subst hs
  subst hp
  subst href
  simp [onTargetMoved, removeReferenceLine, addCurveToPenPath, hcmds, Cmd.arg]

theorem applyMoves_cons (env : Env) (m : ℚ × ℚ) (rest : List (ℚ × ℚ)) (s : PenState) :
    applyMoves env (m :: rest) s =
      applyMoves env rest (onTargetMoved env m.1 m.2 false s) := rfl

theorem applyMoves_trail_straight (env : Env) (moves : List (ℚ × ℚ)) :
    ∀ (s : PenState) (p : PenPath), s.penType = PenType.trail →
      s.penAttributes.lineShape = LineShape.straight → s.penPath = some p →
      ∃ q, (applyMoves env moves s).penPath = some q
        ∧ q.cmds.length = p.cmds.length + moves.length := by
  induction moves with
  | nil => exact fun s p _ _ hp => ⟨p, hp, rfl⟩
  | cons m rest ih =>
    intro s p ht hs hp
    rw [applyMoves_cons, onTargetMoved_trail_straight env s p m.1 m.2 ht hs hp]
    obtain ⟨q, hq, hlen⟩ := ih
      { s with
          penPath := some { p with cmds := p.cmds ++
            [⟨Tag.L, [(mapToSVGViewBox env m.1 m.2).1, (mapToSVGViewBox env m.1 m.2).2]⟩] }
          referencePoint := some (m.1, m.2) }
      { p with cmds := p.cmds ++
          [⟨Tag.L, [(mapToSVGViewBox env m.1 m.2).1, (mapToSVGViewBox env m.1 m.2).2]⟩] }
      (by simpa using ht) (by simpa using hs) rfl
    refine ⟨q, hq, ?_⟩
    simp only [List.length_append, List.length_cons, List.length_nil] at hlen ⊢
    omega

theorem applyMoves_trail_curve (env : Env) (moves : List (ℚ × ℚ)) :
    ∀ (s : PenState) (p : PenPath), s.penType = PenType.trail →
      s.penAttributes.lineShape = LineShape.curve → s.penPath = some p →
      (p.cmds.getLast?.getD defaultCmd).tag = Tag.T → p.cmds ≠ [] →
      ∃ q, (applyMoves env moves s).penPath = some q
        ∧ q.cmds.length = p.cmds.length + moves.length
        ∧ (q.cmds.getLast?.getD defaultCmd).tag = Tag.T ∧ q.cmds ≠ [] := by
  induction moves with
  | nil => exact fun s p _ _ hp hT hne => ⟨p, hp, rfl, hT, hne⟩
  | cons m rest ih =>
    intro s p ht hs hp hT hne
    rw [applyMoves_cons, onTargetMoved_trail_curve env s p m.1 m.2 ht hs hp]
    obtain ⟨q, hq, hlen, hqT, hqne⟩ := ih
      { s with
          penPath := some { p with cmds := addCurveToPenPath env p.cmds m.1 m.2 }
          referencePoint := some (m.1, m.2) }
      { p with cmds := addCurveToPenPath env p.cmds m.1 m.2 }
      (by simpa using ht) (by simpa using hs) rfl
      (addCurveToPenPath_getLast env p.cmds m.1 m.2)
      (addCurveToPenPath_ne_nil env p.cmds m.1 m.2)
    refine ⟨q, hq, ?_, hqT, hqne⟩
    have hstep := addCurveToPenPath_length_of_T env p.cmds m.1 m.2 hT hne
    simp only [List.length_cons] at hlen ⊢
    omega

theorem penDown_trail_idle (env : Env) (x y : ℚ) (s : PenState)
    (hidle : s.penPath = none) :
    penDown env PenType.trail x y s =
      { s with
          penType := PenType.trail
          penPath := some (freshPath env x y s.penAttributes) } := by
  obtain ⟨pt, attrs, pp, fin, ref⟩ := s
  dsimp only at hidle
  subst hidle
  simp [penDown, penDownCont, startPenPath, freshPath, finishPen]

theorem plot_idle (env : Env) (x y : ℚ) (s : PenState)
    (hidle : s.penPath = none) :
    plot env x y s =
      { s with
          penType := PenType.plotter
          penPath := some (freshPath env x y s.penAttributes)
          referencePoint := none } := by
  obtain ⟨pt, attrs, pp, fin, ref⟩ := s
  dsimp only at hidle
  subst hidle
  simp [plot, startPenPath, freshPath, finishPen]

/-!
Claim C4.
-/

/-- C4 amended: in trail mode, N consecutive non-forced motion events
after pen-down yield a current path with exactly N + 1 commands in
straight shape, and exactly N + 2 commands in curve shape once N is at
least 1 (the curve tip occupies a `Q`,`T` pair). -/
theorem vpen_C4_trail_counts (env : Env) (s0 : PenState) (x0 y0 : ℚ)
    (moves : List (ℚ × ℚ)) (hidle : s0.penPath = none) :
    (s0.penAttributes.lineShape = LineShape.straight →
      ∃ p, (applyMoves env moves (penDown env PenType.trail x0 y0 s0)).penPath = some p
        ∧ p.cmds.length = moves.length + 1)
    ∧ (s0.penAttributes.lineShape = LineShape.curve → moves ≠ [] →
      ∃ p, (applyMoves env moves (penDown env PenType.trail x0 y0 s0)).penPath = some p
        ∧ p.cmds.length = moves.length + 2) := by
  rw [penDown_trail_idle env x0 y0 s0 hidle]
  constructor
  · intro hstraight
    obtain ⟨q, hq, hlen⟩ := applyMoves_trail_straight env moves
      { s0 with penType := PenType.trail
                penPath := some (freshPath env x0 y0 s0.penAttributes) }
      (freshPath env x0 y0 s0.penAttributes) rfl hstraight rfl
    refine ⟨q, hq, ?_⟩
    simp only [freshPath, List.length_singleton] at hlen
    omega
  · intro hcurve hmoves
    obtain ⟨m, rest, rfl⟩ := List.exists_cons_of_ne_nil hmoves
    rw [applyMoves_cons,
      onTargetMoved_trail_curve env
        { s0 with penType := PenType.trail
                  penPath := some (freshPath env x0 y0 s0.penAttributes) }
        (freshPath env x0 y0 s0.penAttributes) m.1 m.2 rfl hcurve rfl]
    obtain ⟨q, hq, hlen, hqT, hqne⟩ := applyMoves_trail_curve env rest
      { s0 with penType := PenType.trail
                penPath := some { freshPath env x0 y0 s0.penAttributes with
                  cmds := addCurveToPenPath env
                    (freshPath env x0 y0 s0.penAttributes).cmds m.1 m.2 }
                referencePoint := some (m.1, m.2) }
      { freshPath env x0 y0 s0.penAttributes with
          cmds := addCurveToPenPath env
            (freshPath env x0 y0 s0.penAttributes).cmds m.1 m.2 }
      rfl hcurve rfl
      (addCurveToPenPath_getLast env (freshPath env x0 y0 s0.penAttributes).cmds m.1 m.2)
      (addCurveToPenPath_ne_nil env (freshPath env x0 y0 s0.penAttributes).cmds m.1 m.2)
    refine ⟨q, hq, ?_⟩
    have hstep := addCurveToPenPath_length_of_not_T env
      (freshPath env x0 y0 s0.penAttributes).cmds m.1 m.2 (by simp [freshPath])
    have hflen : (freshPath env x0 y0 s0.penAttributes).cmds.length = 1 := rfl
    rw [hflen] at hstep
    dsimp only at hlen
    simp only [List.length_cons] at hlen ⊢
    omega

/-- Witness for C4: one straight trail motion from the default state and
one curve trail motion from the curve-shaped default state. -/
theorem vpen_C4_trail_counts_witness :
    defaultPenState.penPath = none
    ∧ (setLineShape LineShape.curve defaultPenState).penPath = none
    ∧ (∃ p, (applyMoves env0 [(10, 0)]
        (penDown env0 PenType.trail 0 0 defaultPenState)).penPath = some p
        ∧ p.cmds.length = 1 + 1)
    ∧ (∃ p, (applyMoves env0 [(10, 0)]
        (penDown env0 PenType.trail 0 0
          (setLineShape LineShape.curve defaultPenState))).penPath = some p
        ∧ p.cmds.length = 1 + 2) := by
  refine ⟨rfl, rfl, ?_, ?_⟩
  · exact (vpen_C4_trail_counts env0 defaultPenState 0 0 [(10, 0)] rfl).1 rfl
  · exact (vpen_C4_trail_counts env0 (setLineShape LineShape.curve defaultPenState)
      0 0 [(10, 0)] rfl).2 rfl (by simp)

theorem onTargetMoved_plotter_straight_refnone (env : Env) (s : PenState) (p : PenPath)
    (x y : ℚ) (ht : s.penType = PenType.plotter)
    (hs : s.penAttributes.lineShape = LineShape.straight)
    (hp : s.penPath = some p) (href : s.referencePoint = none) :
    onTargetMoved env x y false s =
      { s with
          penPath := some { p with cmds := p.cmds ++
            [⟨Tag.L, [(mapToSVGViewBox env x y).1, (mapToSVGViewBox env x y).2]⟩] }
          referencePoint := some (x, y) } := by
  obtain ⟨pt, ⟨c, o, d, ls, fc, fo⟩, pp, fin, ref⟩ := s
  dsimp only at ht hs hp href
  subst ht
  subst hs
  subst hp
  subst href
  simp [onTargetMoved, removeReferenceLine, addLineToPenPath]

theorem onTargetMoved_plotter_curve_refnone (env : Env) (s : PenState) (p : PenPath)
    (x y : ℚ) (ht : s.penType = PenType.plotter)
    (hs : s.penAttributes.lineShape = LineShape.curve)
    (hp : s.penPath = some p) (href : s.referencePoint = none) :
    onTargetMoved env x y false s =
      { s with
          penPath := some { p with cmds := addCurveToPenPath env p.cmds x y }
          referencePoint := some (x, y) } := by
  obtain ⟨pt, ⟨c, o, d, ls, fc, fo⟩, pp, fin, ref⟩ := s
  dsimp only at ht hs hp href
  subst ht
  subst hs
  subst hp
  subst href
  simp [onTargetMoved, removeReferenceLine]

theorem addCurveToPenPath_singleton (env : Env) (m0 : Cmd) (x y : ℚ)
    (h : ¬ m0.tag = Tag.T) :
    addCurveToPenPath env [m0] x y =
      [m0,
       ⟨Tag.Q, [m0.arg 0, m0.arg 1, (m0.arg 0 + (mapToSVGViewBox env x y).1) / 2,
         (m0.arg 1 + (mapToSVGViewBox env x y).2) / 2]⟩,
       ⟨Tag.T, [(mapToSVGViewBox env x y).1, (mapToSVGViewBox env x y).2]⟩] := by
  simp [addCurveToPenPath, h]

theorem applyMoves_plotter_straight2 (env : Env) (moves : List (ℚ × ℚ)) :
    ∀ (s : PenState) (p : PenPath) (r : ℚ × ℚ), s.penType = PenType.plotter →
      s.penAttributes.lineShape = LineShape.straight → s.penPath = some p →
      p.cmds.length = 2 → s.referencePoint = some r →
      ∃ q r2, (applyMoves env moves s).penPath = some q
        ∧ q.cmds.length = 2
        ∧ (applyMoves env moves s).referencePoint = some r2 := by
  induction moves with
  | nil => exact fun s p r _ _ hp hlen href => ⟨p, r, hp, hlen, href⟩
  | cons m rest ih =>
    intro s p r ht hs hp hlen href
    rw [applyMoves_cons,
      onTargetMoved_plotter_straight_refsome env s p m.1 m.2 r ht hs hp href]
    exact ih
      { s with
          penPath := some { p with cmds := p.cmds.dropLast ++
            [⟨Tag.L, [(mapToSVGViewBox env m.1 m.2).1, (mapToSVGViewBox env m.1 m.2).2]⟩] }
          referencePoint := some (m.1, m.2) }
      { p with cmds := p.cmds.dropLast ++
          [⟨Tag.L, [(mapToSVGViewBox env m.1 m.2).1, (mapToSVGViewBox env m.1 m.2).2]⟩] }
      (m.1, m.2) ht hs rfl
      (by simp [List.length_dropLast, hlen]) rfl

theorem applyMoves_plotter_curve (env : Env) (moves : List (ℚ × ℚ)) (m0 : Cmd) :
    ∀ (s : PenState) (p : PenPath) (cx cy ex ey : ℚ) (r : ℚ × ℚ),
      s.penType = PenType.plotter → s.penAttributes.lineShape = LineShape.curve →
      s.penPath = some p →
      p.cmds = [m0, ⟨Tag.Q, [m0.arg 0, m0.arg 1, cx, cy]⟩, ⟨Tag.T, [ex, ey]⟩] →
      s.referencePoint = some r →
      ∃ q cx2 cy2 ex2 ey2 r2, (applyMoves env moves s).penPath = some q
        ∧ q.cmds = [m0, ⟨Tag.Q, [m0.arg 0, m0.arg 1, cx2, cy2]⟩, ⟨Tag.T, [ex2, ey2]⟩]
        ∧ (applyMoves env moves s).referencePoint = some r2 := by
  induction moves with
  | nil =>
    exact fun s p cx cy ex ey r _ _ hp hcmds href =>
      ⟨p, cx, cy, ex, ey, r, hp, hcmds, href⟩
  | cons m rest ih =>
    intro s p cx cy ex ey r ht hs hp hcmds href
    rw [applyMoves_cons,
      onTargetMoved_plotter_curve_inv env s p m0 cx cy ex ey m.1 m.2 r ht hs hp hcmds href]
    exact ih
      { s with
          penPath := some { p with cmds := [m0,
            ⟨Tag.Q, [m0.arg 0, m0.arg 1, (m0.arg 0 + (mapToSVGViewBox env m.1 m.2).1) / 2,
              (m0.arg 1 + (mapToSVGViewBox env m.1 m.2).2) / 2]⟩,
            ⟨Tag.T, [(mapToSVGViewBox env m.1 m.2).1, (mapToSVGViewBox env m.1 m.2).2]⟩] }
          referencePoint := some (m.1, m.2) }
      { p with cmds := [m0,
          ⟨Tag.Q, [m0.arg 0, m0.arg 1, (m0.arg 0 + (mapToSVGViewBox env m.1 m.2).1) / 2,
            (m0.arg 1 + (mapToSVGViewBox env m.1 m.2).2) / 2]⟩,
          ⟨Tag.T, [(mapToSVGViewBox env m.1 m.2).1, (mapToSVGViewBox env m.1 m.2).2]⟩] }
      ((m0.arg 0 + (mapToSVGViewBox env m.1 m.2).1) / 2)
      ((m0.arg 1 + (mapToSVGViewBox env m.1 m.2).2) / 2)
      (mapToSVGViewBox env m.1 m.2).1 (mapToSVGViewBox env m.1 m.2).2
      (m.1, m.2) ht hs rfl rfl rfl

/-!
Claim C3.
-/

/-- C3 amended: for a freshly started plotter path, after any positive
number of consecutive motion events with no intervening plot call, the
command count is exactly 2 (MoveTo plus one provisional `L`) in straight
shape and exactly 3 (MoveTo plus a provisional `Q`,`T` pair) in curve
shape — each motion event replaces the previous provisional command(s)
instead of accumulating them. -/
theorem vpen_C3_plotter_preview (env : Env) (s0 : PenState) (x0 y0 : ℚ)
    (moves : List (ℚ × ℚ)) (hidle : s0.penPath = none) (hmoves : moves ≠ []) :
    (s0.penAttributes.lineShape = LineShape.straight →
      ∃ p, (applyMoves env moves (plot env x0 y0 s0)).penPath = some p
        ∧ p.cmds.length = 2)
    ∧ (s0.penAttributes.lineShape = LineShape.curve →
      ∃ p, (applyMoves env moves (plot env x0 y0 s0)).penPath = some p
        ∧ p.cmds.length = 3) := by
  rw [plot_idle env x0 y0 s0 hidle]
  obtain ⟨m, rest, rfl⟩ := List.exists_cons_of_ne_nil hmoves
  constructor
  · intro hstraight
    rw [applyMoves_cons,
      onTargetMoved_plotter_straight_refnone env
        { s0 with penType := PenType.plotter
                  penPath := some (freshPath env x0 y0 s0.penAttributes)
                  referencePoint := none }
        (freshPath env x0 y0 s0.penAttributes) m.1 m.2 rfl hstraight rfl rfl]
    obtain ⟨q, r2, hq, hlen, href⟩ := applyMoves_plotter_straight2 env rest
      { s0 with penType := PenType.plotter
                penPath := some { freshPath env x0 y0 s0.penAttributes with
                  cmds := (freshPath env x0 y0 s0.penAttributes).cmds ++
                    [⟨Tag.L, [(mapToSVGViewBox env m.1 m.2).1,
                      (mapToSVGViewBox env m.1 m.2).2]⟩] }
                referencePoint := some (m.1, m.2) }
      { freshPath env x0 y0 s0.penAttributes with
          cmds := (freshPath env x0 y0 s0.penAttributes).cmds ++
            [⟨Tag.L, [(mapToSVGViewBox env m.1 m.2).1,
              (mapToSVGViewBox env m.1 m.2).2]⟩] }
      (m.1, m.2) rfl hstraight rfl (by simp [freshPath]) rfl
    exact ⟨q, hq, hlen⟩
  · intro hcurve
    have hsingle : (freshPath env x0 y0 s0.penAttributes).cmds =
        [⟨Tag.M, [(mapToSVGViewBox env x0 y0).1, (mapToSVGViewBox env x0 y0).2]⟩] := rfl
    rw [applyMoves_cons,
      onTargetMoved_plotter_curve_refnone env
        { s0 with penType := PenType.plotter
                  penPath := some (freshPath env x0 y0 s0.penAttributes)
                  referencePoint := none }
        (freshPath env x0 y0 s0.penAttributes) m.1 m.2 rfl hcurve rfl rfl]
    obtain ⟨q, cx2, cy2, ex2, ey2, r2, hq, hcmds, href⟩ := applyMoves_plotter_curve env rest
      (⟨Tag.M, [(mapToSVGViewBox env x0 y0).1, (mapToSVGViewBox env x0 y0).2]⟩ : Cmd)
      { s0 with penType := PenType.plotter
                penPath := some { freshPath env x0 y0 s0.penAttributes with
                  cmds := addCurveToPenPath env
                    (freshPath env x0 y0 s0.penAttributes).cmds m.1 m.2 }
                referencePoint := some (m.1, m.2) }
      { freshPath env x0 y0 s0.penAttributes with
          cmds := addCurveToPenPath env
            (freshPath env x0 y0 s0.penAttributes).cmds m.1 m.2 }
      (((⟨Tag.M, [(mapToSVGViewBox env x0 y0).1, (mapToSVGViewBox env x0 y0).2]⟩ : Cmd).arg 0
          + (mapToSVGViewBox env m.1 m.2).1) / 2)
      (((⟨Tag.M, [(mapToSVGViewBox env x0 y0).1, (mapToSVGViewBox env x0 y0).2]⟩ : Cmd).arg 1
          + (mapToSVGViewBox env m.1 m.2).2) / 2)
      (mapToSVGViewBox env m.1 m.2).1 (mapToSVGViewBox env m.1 m.2).2
      (m.1, m.2) rfl hcurve rfl
      (by rw [hsingle, addCurveToPenPath_singleton env _ m.1 m.2 (by simp)])
      rfl
    exact ⟨q, hq, by simp [hcmds]⟩

/-- Witness for C3: one straight plotter motion and one curve plotter
motion, each from the corresponding default state. -/
theorem vpen_C3_plotter_preview_witness :
    defaultPenState.penPath = none
    ∧ ([((10 : ℚ), (0 : ℚ))] ≠ [])
    ∧ (∃ p, (applyMoves env0 [(10, 0)] (plot env0 0 0 defaultPenState)).penPath = some p
        ∧ p.cmds.length = 2)
    ∧ (∃ p, (applyMoves env0 [(10, 0)]
        (plot env0 0 0 (setLineShape LineShape.curve defaultPenState))).penPath = some p
        ∧ p.cmds.length = 3) := by
  refine ⟨rfl, by simp, ?_, ?_⟩
  · exact (vpen_C3_plotter_preview env0 defaultPenState 0 0 [(10, 0)] rfl (by simp)).1 rfl
  · exact (vpen_C3_plotter_preview env0 (setLineShape LineShape.curve defaultPenState)
      0 0 [(10, 0)] rfl (by simp)).2 rfl

theorem getLast?_cons_of_ne_nil {α : Type} (c : α) (l : List α) (h : l ≠ []) :
    (c :: l).getLast? = l.getLast? := by
  cases l with
  | nil => cases h rfl
  | cons a rest => exact List.getLast?_cons_cons

theorem mergeClosedPlots_getLast (plots : List Cmd) :
    (mergeClosedPlots plots).getLast?.getD defaultCmd = ⟨Tag.Z, []⟩ := by
  unfold mergeClosedPlots
  dsimp only
  split
  · rw [List.getLast?_concat]
    rfl
  · rw [List.getLast?_concat]
    rfl

/-- C1 amended: the close check of `finishPen` compares the path's initial
point, not the first drawn endpoint, with the final command's stored
endpoint.  For a straight-line path (a `MoveTo` followed by at least two
`LineTo` commands, finished with no pending reference point) the compared
start is the `MoveTo` command itself: a `Z` is appended exactly when the
squared distance between the MoveTo point and the last endpoint is within
the squared tolerance, and the path is persisted unchanged otherwise.  For
a curve-first path (a `MoveTo` followed by a `Q` and at least one further
command) the compared start is the first stored point of the initial `Q` —
which in every path the code builds equals the MoveTo position, as the
arbitrary `margs` shows the MoveTo arguments are not even consulted — and
on close the path is persisted with the `mergeClosedPlots` rewrite, whose
result ends in a `Z` command. -/
theorem vpen_C1_close_to_moveto (s : PenState) (p : PenPath) (x0 y0 : ℚ)
    (pts : List (ℚ × ℚ))
    (hpath : s.penPath = some p) (href : s.referencePoint = none)
    (hcmds : p.cmds = ⟨Tag.M, [x0, y0]⟩ :: pts.map (fun v => ⟨Tag.L, [v.1, v.2]⟩))
    (hlen : 2 ≤ pts.length) :
    (finishPen s).penPath = none
    ∧ ((x0 - (pts.getLast?.getD (0, 0)).1) ^ 2 +
         (y0 - (pts.getLast?.getD (0, 0)).2) ^ 2 ≤ tolerance ^ 2 →
        (finishPen s).finished = s.finished ++
          [{ p with cmds := p.cmds ++ [⟨Tag.Z, []⟩] }])
    ∧ (tolerance ^ 2 <
        (x0 - (pts.getLast?.getD (0, 0)).1) ^ 2 +
          (y0 - (pts.getLast?.getD (0, 0)).2) ^ 2 →
        (finishPen s).finished = s.finished ++ [p])
    ∧ ∀ (s2 : PenState) (p2 : PenPath) (margs : List ℚ) (qx qy cx cy : ℚ)
        (rest : List Cmd),
        s2.penPath = some p2 → s2.referencePoint = none →
        p2.cmds = ⟨Tag.M, margs⟩ :: ⟨Tag.Q, [qx, qy, cx, cy]⟩ :: rest →
        rest ≠ [] →
        (finishPen s2).penPath = none
        ∧ ((qx - (p2.cmds.getLast?.getD defaultCmd).arg 0) ^ 2 +
             (qy - (p2.cmds.getLast?.getD defaultCmd).arg 1) ^ 2 ≤ tolerance ^ 2 →
            (finishPen s2).finished = s2.finished ++
              [{ p2 with cmds := mergeClosedPlots p2.cmds }]
            ∧ ((mergeClosedPlots p2.cmds).getLast?.getD defaultCmd).tag = Tag.Z)
        ∧ (tolerance ^ 2 <
            (qx - (p2.cmds.getLast?.getD defaultCmd).arg 0) ^ 2 +
              (qy - (p2.cmds.getLast?.getD defaultCmd).arg 1) ^ 2 →
            (finishPen s2).finished = s2.finished ++ [p2]) := by
  have hD : ∀ (s2 : PenState) (p2 : PenPath) (margs : List ℚ) (qx qy cx cy : ℚ)
      (rest : List Cmd),
      s2.penPath = some p2 → s2.referencePoint = none →
      p2.cmds = ⟨Tag.M, margs⟩ :: ⟨Tag.Q, [qx, qy, cx, cy]⟩ :: rest →
      rest ≠ [] →
      (finishPen s2).penPath = none
      ∧ ((qx - (p2.cmds.getLast?.getD defaultCmd).arg 0) ^ 2 +
           (qy - (p2.cmds.getLast?.getD defaultCmd).arg 1) ^ 2 ≤ tolerance ^ 2 →
          (finishPen s2).finished = s2.finished ++
            [{ p2 with cmds := mergeClosedPlots p2.cmds }]
          ∧ ((mergeClosedPlots p2.cmds).getLast?.getD defaultCmd).tag = Tag.Z)
      ∧ (tolerance ^ 2 <
          (qx - (p2.cmds.getLast?.getD defaultCmd).arg 0) ^ 2 +
            (qy - (p2.cmds.getLast?.getD defaultCmd).arg 1) ^ 2 →
          (finishPen s2).finished = s2.finished ++ [p2]) := by
    intro s2 p2 margs qx qy cx cy rest hpath2 href2 hcmds2 hrest
    obtain ⟨pt2, attrs2, pp2, fin2, ref2⟩ := s2
    dsimp only at hpath2 href2
    subst hpath2
    subst href2
    have hrpos : 0 < rest.length := List.length_pos.mpr hrest
    have h1b : ¬ p2.cmds.length = 1 := by
      rw [hcmds2]
      simp only [List.length_cons]
      omega
    have h2b : ¬ p2.cmds.length = 2 := by
      rw [hcmds2]
      simp only [List.length_cons]
      omega
    have hg1 : p2.cmds.getD 1 defaultCmd = ⟨Tag.Q, [qx, qy, cx, cy]⟩ := by
      rw [hcmds2]
      simp
    unfold finishPen
    dsimp only
    rw [removeReferenceLine_of_ref_none _ rfl]
    dsimp only
    rw [if_neg h1b, if_neg h2b, hg1]
    have hif : (if (⟨Tag.Q, [qx, qy, cx, cy]⟩ : Cmd).tag = Tag.L
        then p2.cmds.getD 0 defaultCmd else (⟨Tag.Q, [qx, qy, cx, cy]⟩ : Cmd))
        = ⟨Tag.Q, [qx, qy, cx, cy]⟩ := if_neg (by simp)
    rw [hif]
    by_cases hc : tolerance ^ 2 <
        ((⟨Tag.Q, [qx, qy, cx, cy]⟩ : Cmd).arg 0 -
          (p2.cmds.getLast?.getD defaultCmd).arg 0) ^ 2 +
        ((⟨Tag.Q, [qx, qy, cx, cy]⟩ : Cmd).arg 1 -
          (p2.cmds.getLast?.getD defaultCmd).arg 1) ^ 2
    · rw [if_pos hc]
      have hc2 : tolerance ^ 2 <
          (qx - (p2.cmds.getLast?.getD defaultCmd).arg 0) ^ 2 +
          (qy - (p2.cmds.getLast?.getD defaultCmd).arg 1) ^ 2 := by
        simpa [Cmd.arg] using hc
      exact ⟨rfl, fun hle => absurd hc2 (not_lt.mpr hle), fun _ => rfl⟩
    · rw [if_neg hc]
      have hc2 : ¬ tolerance ^ 2 <
          (qx - (p2.cmds.getLast?.getD defaultCmd).arg 0) ^ 2 +
          (qy - (p2.cmds.getLast?.getD defaultCmd).arg 1) ^ 2 := by
        simpa [Cmd.arg] using hc
      exact ⟨rfl, fun _ => ⟨rfl, by rw [mergeClosedPlots_getLast]⟩,
        fun hlt => absurd hlt hc2⟩
  obtain ⟨pt, attrs, pp, fin, ref⟩ := s
  dsimp only at hpath href
  subst hpath
  subst href
  have hne : pts ≠ [] := by
    intro h
    rw [h] at hlen
    simp at hlen
  obtain ⟨lst, hlst⟩ : ∃ l, pts.getLast? = some l := by
    cases h : pts.getLast? with
    | none => exact absurd (List.getLast?_eq_none_iff.mp h) hne
    | some l => exact ⟨l, rfl⟩
  obtain ⟨a, pts2, rfl⟩ := List.exists_cons_of_ne_nil hne
  have h1 : ¬ p.cmds.length = 1 := by
    rw [hcmds]
    simp only [List.length_cons, List.length_map]
    omega
  have h2 : ¬ p.cmds.length = 2 := by
    rw [hcmds]
    simp only [List.length_cons, List.length_map] at hlen ⊢
    omega
  have hgetD1 : p.cmds.getD 1 defaultCmd = ⟨Tag.L, [a.1, a.2]⟩ := by
    rw [hcmds]
    simp
  have hgetD0 : p.cmds.getD 0 defaultCmd = ⟨Tag.M, [x0, y0]⟩ := by
    rw [hcmds]
    simp
  have hlast : p.cmds.getLast?.getD defaultCmd = ⟨Tag.L, [lst.1, lst.2]⟩ := by
    rw [hcmds, getLast?_cons_of_ne_nil _ _ (by simp), List.getLast?_map, hlst]
    rfl
  have hmerge : mergeClosedPlots p.cmds = p.cmds ++ [⟨Tag.Z, []⟩] := by
    unfold mergeClosedPlots
    dsimp only
    rw [hgetD1]
    simp
  have hldgd : (List.getLast? (a :: pts2)).getD ((0 : ℚ), (0 : ℚ)) = lst := by
    rw [hlst]
    rfl
  rw [hldgd]
  unfold finishPen
  dsimp only
  rw [removeReferenceLine_of_ref_none _ rfl]
  dsimp only
  rw [if_neg h1, if_neg h2, hgetD1, hgetD0, hlast]
  have hif : (if (⟨Tag.L, [a.1, a.2]⟩ : Cmd).tag = Tag.L
      then (⟨Tag.M, [x0, y0]⟩ : Cmd) else ⟨Tag.L, [a.1, a.2]⟩) = ⟨Tag.M, [x0, y0]⟩ :=
    if_pos rfl
  rw [hif]
  by_cases hc : tolerance ^ 2 <
      ((⟨Tag.M, [x0, y0]⟩ : Cmd).arg 0 - (⟨Tag.L, [lst.1, lst.2]⟩ : Cmd).arg 0) ^ 2 +
      ((⟨Tag.M, [x0, y0]⟩ : Cmd).arg 1 - (⟨Tag.L, [lst.1, lst.2]⟩ : Cmd).arg 1) ^ 2
  · rw [if_pos hc]
    have hc2 : tolerance ^ 2 < (x0 - lst.1) ^ 2 + (y0 - lst.2) ^ 2 := by
      simpa [Cmd.arg] using hc
    refine ⟨rfl, ?_, fun _ => rfl, hD⟩
    intro hle
    exact absurd hc2 (not_lt.mpr hle)
  · rw [if_neg hc]
    have hc2 : ¬ tolerance ^ 2 < (x0 - lst.1) ^ 2 + (y0 - lst.2) ^ 2 := by
      simpa [Cmd.arg] using hc
    refine ⟨rfl, fun _ => ?_, ?_, hD⟩
    · rw [hmerge]
    · intro hlt
      exact absurd hlt hc2

/-- Witness for C1 at a concrete three-segment straight path returning to
its MoveTo point, plus a concrete curve-first path closing onto the first
`Q` command's stored start point. -/
theorem vpen_C1_close_to_moveto_witness :
    ({ defaultPenState with
        penPath := some (mkPath [⟨Tag.M, [0, 0]⟩, ⟨Tag.L, [3, 4]⟩, ⟨Tag.L, [0, 0]⟩]) } :
        PenState).penPath =
      some (mkPath [⟨Tag.M, [0, 0]⟩, ⟨Tag.L, [3, 4]⟩, ⟨Tag.L, [0, 0]⟩])
    ∧ ((0 : ℚ) - (([((3 : ℚ), (4 : ℚ)), (0, 0)].getLast?.getD (0, 0)).1)) ^ 2 +
        ((0 : ℚ) - (([((3 : ℚ), (4 : ℚ)), (0, 0)].getLast?.getD (0, 0)).2)) ^ 2 ≤
        tolerance ^ 2
    ∧ (finishPen { defaultPenState with
        penPath := some (mkPath [⟨Tag.M, [0, 0]⟩, ⟨Tag.L, [3, 4]⟩, ⟨Tag.L, [0, 0]⟩]) }).finished =
      [] ++ [{ mkPath [⟨Tag.M, [0, 0]⟩, ⟨Tag.L, [3, 4]⟩, ⟨Tag.L, [0, 0]⟩] with
        cmds := (mkPath [⟨Tag.M, [0, 0]⟩, ⟨Tag.L, [3, 4]⟩, ⟨Tag.L, [0, 0]⟩]).cmds ++
          [⟨Tag.Z, []⟩] }]
    ∧ ((0 : ℚ) - ((mkPath [⟨Tag.M, [0, 0]⟩, ⟨Tag.Q, [0, 0, 5, 5]⟩,
          ⟨Tag.T, [0, 0]⟩]).cmds.getLast?.getD defaultCmd).arg 0) ^ 2 +
        ((0 : ℚ) - ((mkPath [⟨Tag.M, [0, 0]⟩, ⟨Tag.Q, [0, 0, 5, 5]⟩,
          ⟨Tag.T, [0, 0]⟩]).cmds.getLast?.getD defaultCmd).arg 1) ^ 2 ≤ tolerance ^ 2
    ∧ (finishPen { defaultPenState with
        penPath := some (mkPath [⟨Tag.M, [0, 0]⟩, ⟨Tag.Q, [0, 0, 5, 5]⟩,
          ⟨Tag.T, [0, 0]⟩]) }).finished =
      [] ++ [{ mkPath [⟨Tag.M, [0, 0]⟩, ⟨Tag.Q, [0, 0, 5, 5]⟩, ⟨Tag.T, [0, 0]⟩] with
        cmds := mergeClosedPlots (mkPath [⟨Tag.M, [0, 0]⟩, ⟨Tag.Q, [0, 0, 5, 5]⟩,
          ⟨Tag.T, [0, 0]⟩]).cmds }]
    ∧ ((mergeClosedPlots (mkPath [⟨Tag.M, [0, 0]⟩, ⟨Tag.Q, [0, 0, 5, 5]⟩,
          ⟨Tag.T, [0, 0]⟩]).cmds).getLast?.getD defaultCmd).tag = Tag.Z := by
  have h := vpen_C1_close_to_moveto
    { defaultPenState with
        penPath := some (mkPath [⟨Tag.M, [0, 0]⟩, ⟨Tag.L, [3, 4]⟩, ⟨Tag.L, [0, 0]⟩]) }
    (mkPath [⟨Tag.M, [0, 0]⟩, ⟨Tag.L, [3, 4]⟩, ⟨Tag.L, [0, 0]⟩])
    0 0 [(3, 4), (0, 0)] rfl rfl rfl (by norm_num)
  have hcurve := h.2.2.2
    { defaultPenState with
        penPath := some (mkPath [⟨Tag.M, [0, 0]⟩, ⟨Tag.Q, [0, 0, 5, 5]⟩,
          ⟨Tag.T, [0, 0]⟩]) }
    (mkPath [⟨Tag.M, [0, 0]⟩, ⟨Tag.Q, [0, 0, 5, 5]⟩, ⟨Tag.T, [0, 0]⟩])
    [0, 0] 0 0 5 5 [⟨Tag.T, [0, 0]⟩] rfl rfl rfl (by simp)
  have hle : ((0 : ℚ) - ((mkPath [⟨Tag.M, [0, 0]⟩, ⟨Tag.Q, [0, 0, 5, 5]⟩,
        ⟨Tag.T, [0, 0]⟩]).cmds.getLast?.getD defaultCmd).arg 0) ^ 2 +
      ((0 : ℚ) - ((mkPath [⟨Tag.M, [0, 0]⟩, ⟨Tag.Q, [0, 0, 5, 5]⟩,
        ⟨Tag.T, [0, 0]⟩]).cmds.getLast?.getD defaultCmd).arg 1) ^ 2 ≤ tolerance ^ 2 := by
    norm_num [mkPath, Cmd.arg, tolerance]
  refine ⟨rfl, by norm_num [tolerance], h.2.1 (by norm_num [tolerance]),
    hle, (hcurve.2.1 hle).1, (hcurve.2.1 hle).2⟩

theorem removeReferenceLine_penPath_diameter (s : PenState) (d : ℚ) :
    (removeReferenceLine
      { s with penAttributes := { s.penAttributes with diameter := d } }).penPath
      = (removeReferenceLine s).penPath := by
  obtain ⟨pt, ⟨c, o, d0, ls, fc, fo⟩, pp, fin, ref⟩ := s
  cases ref <;> cases pp <;> cases ls <;> simp [removeReferenceLine]

theorem removeReferenceLine_path_fields (s : PenState) (p : PenPath)
    (hp : s.penPath = some p) :
    ∃ q, (removeReferenceLine s).penPath = some q
      ∧ q.strokeWidth = p.strokeWidth := by
  obtain ⟨pt, ⟨c, o, d0, ls, fc, fo⟩, pp, fin, ref⟩ := s
  dsimp only at hp
  subst hp
  cases ref <;> cases ls <;> simp [removeReferenceLine]

theorem finishPen_spec (s : PenState) (p : PenPath) (hp : s.penPath = some p) :
    (finishPen s).penPath = none
    ∧ (finishPen s).penAttributes = s.penAttributes
    ∧ (((removeReferenceLine s).penPath.getD p).cmds.length = 1 →
        (finishPen s).finished = s.finished)
    ∧ (((removeReferenceLine s).penPath.getD p).cmds.length ≠ 1 →
        ∃ q, (finishPen s).finished = s.finished ++ [q]
          ∧ q.strokeWidth = p.strokeWidth) := by
  obtain ⟨q, hq, hw⟩ := removeReferenceLine_path_fields s p hp
  have hfin : (removeReferenceLine s).finished = s.finished :=
    removeReferenceLine_finished s
  have hattrs : (removeReferenceLine s).penAttributes = s.penAttributes :=
    removeReferenceLine_penAttributes s
  have hgetD : (removeReferenceLine s).penPath.getD p = q := by rw [hq]; rfl
  rw [hgetD]
  unfold finishPen
  rw [hp]
  dsimp only
  rw [hq]
  dsimp only
  by_cases h1 : q.cmds.length = 1
  · rw [if_pos h1]
    exact ⟨rfl, hattrs, fun _ => hfin, fun hn => absurd h1 hn⟩
  · rw [if_neg h1]
    by_cases h2 : q.cmds.length = 2
    · rw [if_pos h2]
      exact ⟨rfl, hattrs, fun h => absurd h h1,
        fun _ => ⟨q, by rw [hfin], hw⟩⟩
    · rw [if_neg h2]
      split
      · split
        · exact ⟨rfl, hattrs, fun h => absurd h h1,
            fun _ => ⟨q, by rw [hfin], hw⟩⟩
        · exact ⟨rfl, hattrs, fun h => absurd h h1,
            fun _ => ⟨{ q with cmds := mergeClosedPlots q.cmds }, by rw [hfin], hw⟩⟩
      · split
        · exact ⟨rfl, hattrs, fun h => absurd h h1,
            fun _ => ⟨q, by rw [hfin], hw⟩⟩
        · exact ⟨rfl, hattrs, fun h => absurd h h1,
            fun _ => ⟨{ q with cmds := mergeClosedPlots q.cmds }, by rw [hfin], hw⟩⟩

/-!
Claim C6.
-/

/-- C6: changing the pen diameter to a different (clamped) value while a
path is open finishes the open path — persisting it exactly when, after
reference-line removal, it still has more than one command, with its
stroke width untouched — and starts a new path whose single `MoveTo` sits
exactly at the last drawn position (the target's current position), with
the new diameter applied to the new path only. -/
theorem vpen_C6_size_restart (env : Env) (s : PenState) (p : PenPath) (x y sz : ℚ)
    (hopen : s.penPath = some p)
    (hdiff : clampPenSize sz ≠ s.penAttributes.diameter)
    (hlastx : (p.cmds.getLast?.getD defaultCmd).arg 0 = (mapToSVGViewBox env x y).1)
    (hlasty : (p.cmds.getLast?.getD defaultCmd).arg 1 = (mapToSVGViewBox env x y).2) :
    (∃ q, (setPenSizeTo env x y sz s).penPath = some q
      ∧ q.cmds = [⟨Tag.M, [(p.cmds.getLast?.getD defaultCmd).arg 0,
          (p.cmds.getLast?.getD defaultCmd).arg 1]⟩]
      ∧ q.strokeWidth = clampPenSize sz * env.stepPerMM)
    ∧ (((removeReferenceLine s).penPath.getD p).cmds.length = 1 →
        (setPenSizeTo env x y sz s).finished = s.finished)
    ∧ (((removeReferenceLine s).penPath.getD p).cmds.length ≠ 1 →
        ∃ q2, (setPenSizeTo env x y sz s).finished = s.finished ++ [q2]
          ∧ q2.strokeWidth = p.strokeWidth)
    ∧ (setPenSizeTo env x y sz s).penAttributes.diameter = clampPenSize sz := by
  have hguard : ¬ s.penAttributes.diameter = clampPenSize sz := fun h => hdiff h.symm
  have hs1path : ({ s with penAttributes :=
      { s.penAttributes with diameter := clampPenSize sz } } : PenState).penPath = some p := by
    simpa using hopen
  have hstep : setPenSizeTo env x y sz s =
      startPenPath env x y
        { s with penAttributes := { s.penAttributes with diameter := clampPenSize sz } } := by
    unfold setPenSizeTo
    dsimp only
    rw [if_neg hguard]
    rw [show ({ s with penAttributes :=
        { s.penAttributes with diameter := clampPenSize sz } } : PenState).penPath
      = some p from hs1path]
  obtain ⟨hpnone, hattrs, hkeep, hpersist⟩ := finishPen_spec
    { s with penAttributes := { s.penAttributes with diameter := clampPenSize sz } }
    p hs1path
  have htrans : (removeReferenceLine { s with penAttributes :=
      { s.penAttributes with diameter := clampPenSize sz } }).penPath.getD p
      = (removeReferenceLine s).penPath.getD p := by
    rw [removeReferenceLine_penPath_diameter]
  rw [htrans] at hkeep hpersist
  have hfin1 : ({ s with penAttributes :=
      { s.penAttributes with diameter := clampPenSize sz } } : PenState).finished
      = s.finished := rfl
  rw [hfin1] at hkeep hpersist
  have hsp : startPenPath env x y
      { s with penAttributes := { s.penAttributes with diameter := clampPenSize sz } } =
      { finishPen { s with penAttributes :=
          { s.penAttributes with diameter := clampPenSize sz } } with
        penPath := some (freshPath env x y
          (finishPen { s with penAttributes :=
            { s.penAttributes with diameter := clampPenSize sz } }).penAttributes) } := rfl
  refine ⟨?_, ?_, ?_, ?_⟩
  · refine ⟨freshPath env x y
      (finishPen { s with penAttributes :=
        { s.penAttributes with diameter := clampPenSize sz } }).penAttributes, ?_, ?_, ?_⟩
    · rw [hstep, hsp]
    · rw [freshPath, hlastx, hlasty]
    · rw [freshPath]
      dsimp only
      rw [hattrs]
  · intro hone
    rw [hstep, hsp]
    dsimp only
    exact hkeep hone
  · intro hmore
    obtain ⟨q2, hq2, hw2⟩ := hpersist hmore
    refine ⟨q2, ?_, hw2⟩
    rw [hstep, hsp]
    dsimp only
    exact hq2
  · rw [hstep, startPenPath_penAttributes]

/-- Witness for C6: a trail path with one drawn segment, the target at
the last drawn position, and a size change from 1 to 5. -/
theorem vpen_C6_size_restart_witness :
    ({ defaultPenState with
        penPath := some (mkPath [⟨Tag.M, [240, 180]⟩, ⟨Tag.L, [260, 180]⟩])
        referencePoint := some (20, 0) } : PenState).penPath =
      some (mkPath [⟨Tag.M, [240, 180]⟩, ⟨Tag.L, [260, 180]⟩])
    ∧ clampPenSize 5 ≠ (1 : ℚ)
    ∧ (∃ q, (setPenSizeTo env0 20 0 5
        { defaultPenState with
          penPath := some (mkPath [⟨Tag.M, [240, 180]⟩, ⟨Tag.L, [260, 180]⟩])
          referencePoint := some (20, 0) }).penPath = some q
      ∧ q.cmds = [⟨Tag.M,
          [((mkPath [⟨Tag.M, [240, 180]⟩, ⟨Tag.L, [260, 180]⟩]).cmds.getLast?.getD
              defaultCmd).arg 0,
            ((mkPath [⟨Tag.M, [240, 180]⟩, ⟨Tag.L, [260, 180]⟩]).cmds.getLast?.getD
              defaultCmd).arg 1]⟩]
      ∧ q.strokeWidth = clampPenSize 5 * env0.stepPerMM) := by
  have h := vpen_C6_size_restart env0
    { defaultPenState with
        penPath := some (mkPath [⟨Tag.M, [240, 180]⟩, ⟨Tag.L, [260, 180]⟩])
        referencePoint := some (20, 0) }
    (mkPath [⟨Tag.M, [240, 180]⟩, ⟨Tag.L, [260, 180]⟩])
    20 0 5 rfl (by norm_num [clampPenSize, defaultPenState])
    (by norm_num [mkPath, mapToSVGViewBox, env0, Cmd.arg])
    (by norm_num [mkPath, mapToSVGViewBox, env0, Cmd.arg])
  exact ⟨rfl, by norm_num [clampPenSize], h.1⟩

/-!
Lemmas on the document model, and claim C8.
-/

theorem mapAt_length {α : Type} (f : α → α) :
    ∀ (i : ℕ) (l : List α), (mapAt i f l).length = l.length := by
  intro i l
  induction l generalizing i with
  | nil => cases i <;> rfl
  | cons x xs ih =>
    cases i with
    | zero => rfl
    | succ n => simpa [mapAt] using ih n

theorem mapAt_getElem {α : Type} (f : α → α) :
    ∀ (i : ℕ) (l : List α), (mapAt i f l)[i]? = (l[i]?).map f := by
  intro i l
  induction l generalizing i with
  | nil => cases i <;> rfl
  | cons x xs ih =>
    cases i with
    | zero => simp [mapAt]
    | succ n => simpa [mapAt] using ih n

theorem mapAt_getD {α : Type} (f : α → α) (i : ℕ) (l : List α) (d : α)
    (h : i < l.length) :
    (mapAt i f l).getD i d = f (l.getD i d) := by
  rw [List.getD_eq_getElem?_getD, List.getD_eq_getElem?_getD, mapAt_getElem,
    List.getElem?_eq_getElem h]
  rfl

theorem childrenAt_addChildAt (e : SvgElem) :
    ∀ (addr : List ℕ) (es cs : List SvgElem),
      childrenAt addr es = some cs →
      childrenAt addr (addChildAt addr e es) = some (cs ++ [e]) := by
  intro addr
  induction addr with
  | nil =>
    intro es cs h
    simp only [childrenAt, Option.some.injEq] at h
    subst h
    rfl
  | cons i rest ih =>
    intro es cs h
    simp only [childrenAt] at h ⊢
    cases hei : es[i]? with
    | none => rw [hei] at h; simp at h
    | some el =>
      cases el with
      | path c => rw [hei] at h; simp at h
      | group g =>
        rw [hei] at h
        rw [addChildAt, mapAt_getElem, hei]
        exact ih g cs h

theorem childrenAt_append :
    ∀ (a b : List ℕ) (es : List SvgElem),
      childrenAt (a ++ b) es = (childrenAt a es).bind (childrenAt b) := by
  intro a
  induction a with
  | nil => intro b es; rfl
  | cons i rest ih =>
    intro b es
    simp only [List.cons_append, childrenAt]
    cases es[i]? with
    | none => rfl
    | some el =>
      cases el with
      | path c => rfl
      | group g => exact ih b g

/-- C8 counterexample: cloning a target whose source document holds one
persisted path gives the clone a drawing handle inside the very same
document (document index 0, address `[1]`), and drawing a path through
the clone's handle mutates the source's document: the group nested in the
source document goes from zero children to one. -/
theorem vpen_C8_counterexample :
    (cloneDrawingFor [[SvgElem.path [⟨Tag.M, [240, 180]⟩]]] ⟨0, []⟩).2 = ⟨0, [1]⟩
    ∧ ((childrenAt [1]
        (((cloneDrawingFor [[SvgElem.path [⟨Tag.M, [240, 180]⟩]]] ⟨0, []⟩).1).getD 0
          [])).getD []).length = 0
    ∧ ((childrenAt [1]
        ((docAddPath (cloneDrawingFor [[SvgElem.path [⟨Tag.M, [240, 180]⟩]]] ⟨0, []⟩).1
          (cloneDrawingFor [[SvgElem.path [⟨Tag.M, [240, 180]⟩]]] ⟨0, []⟩).2
          [⟨Tag.M, [0, 0]⟩, ⟨Tag.L, [10, 0]⟩]).getD 0 [])).getD []).length = 1
    ∧ (docAddPath (cloneDrawingFor [[SvgElem.path [⟨Tag.M, [240, 180]⟩]]] ⟨0, []⟩).1
          (cloneDrawingFor [[SvgElem.path [⟨Tag.M, [240, 180]⟩]]] ⟨0, []⟩).2
          [⟨Tag.M, [0, 0]⟩, ⟨Tag.L, [10, 0]⟩]).getD 0 []
        ≠ ((cloneDrawingFor [[SvgElem.path [⟨Tag.M, [240, 180]⟩]]] ⟨0, []⟩).1).getD 0 [] := by
  refine ⟨rfl, rfl, rfl, ?_⟩
  intro h
  have h2 := congrArg (fun es => ((childrenAt [1] es).getD ([] : List SvgElem)).length) h
  have h3 : (1 : ℕ) = 0 := h2
  exact absurd h3 (by decide)

/-- C8 amended: on clone creation the new target's drawing surface is a
fresh empty group created inside the source's own document (same document
index, address nested under the source's container), so the two targets
share one mutable document; drawing a path through the clone's handle
inserts that path into the source's document, inside the clone's group. -/
theorem vpen_C8_clone_shares_document (store : DocStore) (src : DrawingHandle)
    (cs : List SvgElem)
    (hdoc : src.doc < store.length)
    (hvalid : childrenAt src.addr (store.getD src.doc []) = some cs) :
    ((cloneDrawingFor store src).2).doc = src.doc
    ∧ ((cloneDrawingFor store src).2).addr = src.addr ++ [cs.length]
    ∧ childrenAt src.addr (((cloneDrawingFor store src).1).getD src.doc [])
        = some (cs ++ [SvgElem.group []])
    ∧ ∀ cmds, childrenAt ((cloneDrawingFor store src).2).addr
        ((docAddPath (cloneDrawingFor store src).1 (cloneDrawingFor store src).2
          cmds).getD src.doc [])
        = some [SvgElem.path cmds] := by
  have haddr : ((cloneDrawingFor store src).2).addr = src.addr ++ [cs.length] := by
    simp only [cloneDrawingFor, docGroup, hvalid]
    rfl
  have hstore2 : ((cloneDrawingFor store src).1).getD src.doc []
      = addChildAt src.addr (SvgElem.group []) (store.getD src.doc []) := by
    simp only [cloneDrawingFor, docGroup]
    exact mapAt_getD _ src.doc store [] hdoc
  have hchildren : childrenAt src.addr (((cloneDrawingFor store src).1).getD src.doc [])
      = some (cs ++ [SvgElem.group []]) := by
    rw [hstore2]
    exact childrenAt_addChildAt (SvgElem.group []) src.addr _ cs hvalid
  refine ⟨rfl, haddr, hchildren, ?_⟩
  intro cmds
  have hlen2 : src.doc < ((cloneDrawingFor store src).1).length := by
    simpa only [cloneDrawingFor, docGroup, mapAt_length] using hdoc
  have hstore3 : (docAddPath (cloneDrawingFor store src).1 (cloneDrawingFor store src).2
      cmds).getD src.doc []
      = addChildAt ((cloneDrawingFor store src).2).addr (SvgElem.path cmds)
          (((cloneDrawingFor store src).1).getD src.doc []) := by
    have hdoceq : ((cloneDrawingFor store src).2).doc = src.doc := rfl
    simp only [docAddPath, hdoceq]
    exact mapAt_getD _ src.doc _ [] hlen2
  have hat : childrenAt ((cloneDrawingFor store src).2).addr
      (((cloneDrawingFor store src).1).getD src.doc []) = some [] := by
    rw [haddr, childrenAt_append, hchildren]
    show childrenAt [cs.length] (cs ++ [SvgElem.group []]) = some []
    simp only [childrenAt]
    rw [List.getElem?_concat_length]
  rw [hstore3]
  have := childrenAt_addChildAt (SvgElem.path cmds)
    ((cloneDrawingFor store src).2).addr
    (((cloneDrawingFor store src).1).getD src.doc []) [] hat
  simpa using this

/-- Witness for C8 at a concrete one-path source document. -/
theorem vpen_C8_clone_shares_document_witness :
    ((0 : ℕ) < ([[SvgElem.path [⟨Tag.M, [240, 180]⟩]]] : DocStore).length)
    ∧ childrenAt ([] : List ℕ)
        (([[SvgElem.path [⟨Tag.M, [240, 180]⟩]]] : DocStore).getD 0 [])
        = some [SvgElem.path [⟨Tag.M, [240, 180]⟩]]
    ∧ ((cloneDrawingFor [[SvgElem.path [⟨Tag.M, [240, 180]⟩]]] ⟨0, []⟩).2).doc = 0
    ∧ ((cloneDrawingFor [[SvgElem.path [⟨Tag.M, [240, 180]⟩]]] ⟨0, []⟩).2).addr
        = [] ++ [[SvgElem.path [⟨Tag.M, [240, 180]⟩]].length] := by
  have h := vpen_C8_clone_shares_document [[SvgElem.path [⟨Tag.M, [240, 180]⟩]]]
    ⟨0, []⟩ [SvgElem.path [⟨Tag.M, [240, 180]⟩]] (by decide) rfl
  exact ⟨by decide, rfl, h.1, h.2.1⟩
